import Mathlib

/-!
Verification of the APS management dashboard (src/app.py) against its
natural-language specification.

The development shallowly embeds the data-reconciliation and metrics core of
the program:

* the municipal parameter registry and per-INE team resolution
  (carregar_parametros, _get_parametros_por_ine);
* the enrolled-vs-capacity status classification (get_status inside
  _calcular_vinculos);
* the INE extraction from composite team keys (_calcular_vinculos line 339);
* the crosstab generator (_gerar_grafico_barras_crosstab);
* the upload routing across the three spreadsheet parsers
  (_processar_uploads and the _ler_planilha_* readers);
* the top-5 productivity ranking (_render_aba_producao_consolidada);
* the municipality fallback selection (render_controls).

Modelling conventions: Python/pandas strings are Lean String (Python compares
strings by code point, as Lean's character-list order does); pandas NaN cells
are Option String with none for NaN; counts are Nat; the float arithmetic of
the percentage tables is modelled exactly over ℚ together with an explicit
NaN/inf marker type, so the division-by-zero behaviour of pandas is visible.
pandas sorts are modelled by a stable insertion sort; where the source uses
the pandas default (unstable) quicksort, only order properties that hold for
every correct sort are claimed of the model.
-/

namespace APS

/-! ### Python string primitives -/

/-- Python str.strip on the character list of a string: remove leading and
trailing whitespace.  (Char.isWhitespace covers space, tab, CR and LF, the
whitespace occurring in this data; Python also strips rarer Unicode spaces.) -/
def pyStripL (s : List Char) : List Char :=
  ((s.dropWhile Char.isWhitespace).reverse.dropWhile Char.isWhitespace).reverse

/-- Python str.strip. -/
def pyStrip (s : String) : String := ⟨pyStripL s.data⟩

/-- Python str.upper restricted to ASCII case mapping (Char.toUpper); the
values this is applied to in the program are already ASCII-cased or upper. -/
def pyUpper (s : String) : String := ⟨s.data.map Char.toUpper⟩

/-- Code-point comparison of characters, exactly Python's ordering. -/
def charLt (a b : Char) : Bool := a.toNat < b.toNat

/-- Lexicographic code-point comparison of character lists: Python's < on str. -/
def listCharLt : List Char → List Char → Bool
  | [], [] => false
  | [], _ :: _ => true
  | _ :: _, [] => false
  | a :: as, b :: bs =>
    if charLt a b then true
    else if charLt b a then false
    else listCharLt as bs

/-- Python's < on strings. -/
def strLtB (a b : String) : Bool := listCharLt a.data b.data

/-- Python's <= on strings (total: not (b < a)). -/
def strLeB (a b : String) : Bool := !(strLtB b a)

/-! ### Generic stable insertion sort

Used to model the pandas sorts.  sortLe le keeps an element a before the
first already-placed element b with le a b, which makes it stable: an
element coming earlier in the input stays before later equal elements. -/

def insertLe (le : α → α → Bool) (a : α) : List α → List α
  | [] => [a]
  | b :: bs => if le a b then a :: b :: bs else b :: insertLe le a bs

def sortLe (le : α → α → Bool) : List α → List α
  | [] => []
  | a :: as => insertLe le a (sortLe le as)

/-- First-occurrence deduplication with the already-seen values carried
left to right. -/
def uniqFirstAux [DecidableEq α] (seen : List α) : List α → List α
  | [] => []
  | a :: as =>
    if a ∈ seen then uniqFirstAux seen as
    else a :: uniqFirstAux (seen ++ [a]) as

/-- First-occurrence deduplication, the order pandas unique() keeps. -/
def uniqFirst [DecidableEq α] (l : List α) : List α := uniqFirstAux [] l

/-! ### Parameter registry (carregar_parametros, app.py lines 63-134) -/

/-- One EAP override entry of the eap_por_ine maps: the dicts
with keys tipo / parametro / limite_maximo.  The same shape is returned by
_get_parametros_por_ine for the ESF default. -/
structure EAPOverride where
  tipo : String
  parametro : Nat
  limite_maximo : Nat
deriving DecidableEq

/-- One value of the PARAMETROS_POR_MUNICIPIO dict.  A municipality without
EAP teams omits the eap_por_ine key in the source; params.get('eap_por_ine',
{}) at line 129 normalises that to the empty map, modelled by the default
field value. -/
structure ParamsMunicipio where
  parametro_esf : Nat
  limite_esf : Nat
  eap_por_ine : List (String × EAPOverride) := []
deriving DecidableEq

/-- The PARAMETROS_POR_MUNICIPIO dict of carregar_parametros, in its
insertion (registry) order, app.py lines 73-119. -/
def PARAMETROS_POR_MUNICIPIO : List (String × ParamsMunicipio) := [
  ("ALHANDRA-PB", { parametro_esf := 2500, limite_esf := 3750, eap_por_ine := [("0009999", ⟨"30", 1875, 2813⟩)] }),
  ("MACAÍBA-RN", { parametro_esf := 2750, limite_esf := 4125, eap_por_ine := [("0001234", ⟨"20", 1375, 2063⟩), ("0005678", ⟨"30", 1875, 2813⟩)] }),
  ("VALENÇA-RJ", { parametro_esf := 2750, limite_esf := 4125, eap_por_ine := [("0004321", ⟨"20", 1375, 2063⟩)] }),
  ("ÁGUA PRETA-PE", { parametro_esf := 2500, limite_esf := 3750 }),
  ("ÁGUAS BELAS-PE", { parametro_esf := 2500, limite_esf := 3750 }),
  ("ALTO DO RODRIGUES-RN", { parametro_esf := 2000, limite_esf := 3000 }),
  ("APODI-RN", { parametro_esf := 2500, limite_esf := 3750 }),
  ("ARAPONGA-MG", { parametro_esf := 2000, limite_esf := 3000 }),
  ("AREIA-PB", { parametro_esf := 2500, limite_esf := 3750 }),
  ("AÇU-RN", { parametro_esf := 2750, limite_esf := 4125 }),
  ("BRUMADO-BA", { parametro_esf := 2750, limite_esf := 4125 }),
  ("CAAPORÃ-PB", { parametro_esf := 2500, limite_esf := 3750 }),
  ("CALDAS BRANDÃO-PB", { parametro_esf := 2000, limite_esf := 3000 }),
  ("CANAÃ-MG", { parametro_esf := 2000, limite_esf := 3000 }),
  ("CARNAUBAIS-RN", { parametro_esf := 2000, limite_esf := 3000 }),
  ("CONDE-PB", { parametro_esf := 2500, limite_esf := 3750 }),
  ("CORDEIRO-RJ", { parametro_esf := 2500, limite_esf := 3750 }),
  ("FERNANDO PEDROZA-RN", { parametro_esf := 2000, limite_esf := 3000 }),
  ("GROSSOS-RN", { parametro_esf := 2000, limite_esf := 3000 }),
  ("GUARABIRA-PB", { parametro_esf := 2750, limite_esf := 4125 }),
  ("ITABAIANA-PB", { parametro_esf := 2500, limite_esf := 3750 }),
  ("ITAPOROROCA-PB", { parametro_esf := 2000, limite_esf := 3000 }),
  ("ITATUBA-PB", { parametro_esf := 2000, limite_esf := 3000 }),
  ("MOGEIRO-PB", { parametro_esf := 2000, limite_esf := 3000 }),
  ("PATU-RN", { parametro_esf := 2000, limite_esf := 3000 }),
  ("PAULA CÂNDIDO-MG", { parametro_esf := 2000, limite_esf := 3000 }),
  ("PEDRO VELHO-RN", { parametro_esf := 2000, limite_esf := 3000 }),
  ("PENDÊNCIAS-RN", { parametro_esf := 2000, limite_esf := 3000 }),
  ("POÇO BRANCO-RN", { parametro_esf := 2000, limite_esf := 3000 }),
  ("SANTA RITA-PB", { parametro_esf := 3000, limite_esf := 4500 }),
  ("SÃO JOSÉ DE UBÁ-RJ", { parametro_esf := 2000, limite_esf := 3000 }),
  ("SÃO MIGUEL DO ANTA-MG", { parametro_esf := 2000, limite_esf := 3000 }),
  ("TIBAU-RN", { parametro_esf := 2000, limite_esf := 3000 }),
  ("VIÇOSA-MG", { parametro_esf := 2750, limite_esf := 4125 }),
  ("VIÇOSA DO CEARÁ-CE", { parametro_esf := 2750, limite_esf := 4125 })]

/-- Python s.rsplit('-', 1) on a string containing a dash: split at the last
dash.  Returns none when no dash occurs (the ValueError branch of
carregar_parametros, which skips the entry). -/
def rsplitDash (s : List Char) : Option (List Char × List Char) :=
  match s.reverse.findIdx? (fun c => c == '-') with
  | none => none
  | some j =>
    let i := s.length - 1 - j
    some (s.take i, s.drop (i + 1))

/-- One row of the dataframe built by carregar_parametros. -/
structure RegistroMunicipio where
  municipio : String
  uf : String
  parametro_esf : Nat
  limite_esf : Nat
  eap_por_ine : List (String × EAPOverride)
deriving DecidableEq

/-- carregar_parametros, app.py lines 121-134: split each registry key into
name and state at the last dash (malformed keys are skipped) and build the
parameter rows in registry order. -/
def carregar_parametros : List RegistroMunicipio :=
  PARAMETROS_POR_MUNICIPIO.filterMap fun kp =>
    (rsplitDash kp.1.data).map fun nu =>
      { municipio := ⟨nu.1⟩, uf := ⟨nu.2⟩,
        parametro_esf := kp.2.parametro_esf,
        limite_esf := kp.2.limite_esf,
        eap_por_ine := kp.2.eap_por_ine }

/-! ### Team parameter resolution (_get_parametros_por_ine, lines 321-332) -/

/-- _get_parametros_por_ine: the override-map lookup with the ESF default.
The fields parametro_oficial / limite_oficial of the class are set from the
selected municipality row (render_controls line 427), so the function is
modelled with the registry row as explicit input. -/
def get_parametros_por_ine (m : RegistroMunicipio) (ine : String) : EAPOverride :=
  match m.eap_por_ine.lookup ine with
  | some eap => eap
  | none => { tipo := "ESF", parametro := m.parametro_esf, limite_maximo := m.limite_esf }

/-! ### Capacity status classification (get_status, lines 351-356) -/

/-- get_status of _calcular_vinculos: classify the enrolled count of a team
row against its resolved parametro (target) and limite (hard cap). -/
def get_status (pessoas parametro limite : Nat) : String :=
  if pessoas > limite then "🚨 ACIMA DO LIMITE MÁXIMO"
  else if pessoas > parametro then "⚠️ Acima do Parâmetro"
  else "✅ Dentro do Parâmetro"

/-! ### INE extraction from composite team keys (_calcular_vinculos line 339)

The source computes Equipe Original .str.split(' - ').str[-1].str.strip():
Python's left-to-right non-overlapping split on the three-character
separator, then the last field, then strip. -/

/-- The separator ' - ' used for composite keys. -/
def SEP : List Char := [' ', '-', ' ']

/-- Python s.split(' - '): scan left to right, cutting at each
non-overlapping occurrence of the three-character separator; acc holds the
current field reversed. -/
def splitSepAux : List Char → List Char → List (List Char)
  | c1 :: c2 :: c3 :: rest, acc =>
    if c1 = ' ' ∧ c2 = '-' ∧ c3 = ' ' then
      acc.reverse :: splitSepAux rest []
    else
      splitSepAux (c2 :: c3 :: rest) (c1 :: acc)
  | c :: rest, acc => splitSepAux rest (c :: acc)
  | [], acc => [acc.reverse]

/-- Python s.split(' - '). -/
def pySplit (s : List Char) : List (List Char) := splitSepAux s []

/-- Does the separator occur anywhere in the character list? -/
def temSep : List Char → Bool
  | c1 :: c2 :: c3 :: rest =>
    if c1 = ' ' ∧ c2 = '-' ∧ c3 = ' ' then true else temSep (c2 :: c3 :: rest)
  | _ => false

/-- Line 339 of app.py: the INE token of a composite team key is the last
field of the split on ' - ', stripped of surrounding whitespace. -/
def extrai_ine (k : String) : String :=
  ⟨pyStripL ((pySplit k.data).getLastD [])⟩

/-- Modelled from the claim's words (C7): the INE token is "the text after
the last occurrence of the separator"; for a key with no separator, the
entire composite key.  Stated for comparison with extrai_ine. -/
def ine_segundo_claim (k : String) : String :=
  match ((List.range (k.data.length + 1)).filter
      (fun i => SEP.isPrefixOf (k.data.drop i))).getLast? with
  | some i => ⟨k.data.drop (i + 3)⟩
  | none => k

/-! ### Crosstab generator (_gerar_grafico_barras_crosstab, lines 379-393)

One observation carries the value of the grouping column and the value of
the categorical column.  pd.crosstab indexes the distinct group values in
sorted order; line 384-385 zero-fill every requested category and line 386
selects exactly the requested categories in order (dropping any observed
category outside the list), so the cell of group g and requested category c
is the number of observations with those two values.  Line 387 appends the
row sum as Total and line 388 sorts the rows by Total descending
(sort_values with the pandas default quicksort: any correct sort yields a
descending row order; the stable insertion sort used here is one such sort,
and no theorem below depends on the order among tied rows). -/

/-- One observation row fed to the crosstab (one row of the dataframe). -/
structure Registro where
  grupo : String
  cat : String
deriving DecidableEq

/-- One row of the raw crosstab table: the group label, the cells in
category order, and the Total column. -/
structure LinhaCrosstab where
  grupo : String
  cells : List (String × Nat)
  total : Nat
deriving DecidableEq

/-- Number of observations of group g with categorical value c. -/
def cellCount (rs : List Registro) (g c : String) : Nat :=
  rs.countP (fun r => r.grupo == g && r.cat == c)

/-- The crosstab row of one group, after zero-fill and column selection
(lines 383-387). -/
def linhaFor (rs : List Registro) (ordem : List String) (g : String) : LinhaCrosstab :=
  { grupo := g
    cells := ordem.map (fun c => (c, cellCount rs g c))
    total := (ordem.map (fun c => cellCount rs g c)).sum }

/-- The raw crosstab with Total, rows sorted by Total descending
(lines 383-388). -/
def gerar_crosstab (rs : List Registro) (ordem : List String) : List LinhaCrosstab :=
  let grupos := sortLe strLeB (uniqFirst (rs.map (fun r => r.grupo)))
  sortLe (fun a b => decide (b.total ≤ a.total)) (grupos.map (linhaFor rs ordem))

/-- A pandas float cell: a finite value, NaN, or infinity. -/
inductive PVal where
  | num : ℚ → PVal
  | nan : PVal
  | inf : PVal
deriving DecidableEq

/-- pandas elementwise division: 0/0 is NaN, x/0 with x nonzero is inf. -/
def pdiv (a b : ℚ) : PVal :=
  if b = 0 then (if a = 0 then PVal.nan else PVal.inf) else PVal.num (a / b)

/-- DataFrame.fillna(0) on one cell. -/
def fillna0 : PVal → PVal
  | PVal.nan => PVal.num 0
  | v => v

/-- Multiplication of a pandas cell by the scalar 100. -/
def pmul100 : PVal → PVal
  | PVal.num q => PVal.num (q * 100)
  | PVal.nan => PVal.nan
  | PVal.inf => PVal.inf

/-- Line 389 of app.py for one row: drop Total, divide the raw cells by the
row Total, fillna(0), multiply by 100. -/
def linhaPercentual (l : LinhaCrosstab) : List (String × PVal) :=
  l.cells.map (fun p => (p.1, pmul100 (fillna0 (pdiv (p.2 : ℚ) (l.total : ℚ)))))

/-- The percentage table of the crosstab (line 389). -/
def gerar_percentuais (rs : List Registro) (ordem : List String) : List (List (String × PVal)) :=
  (gerar_crosstab rs ordem).map linhaPercentual

/-! ### Spreadsheet parsers and upload routing (lines 267-319)

A workbook is a list of named sheets; a sheet has a column header list and
rows of cells, a cell being none for NaN.  pd.read_excel of a missing sheet
or an unreadable workbook raises, which every parser catches by returning
None. -/

/-- One sheet: header names and positional rows of optional cells. -/
structure Planilha where
  cols : List String
  rows : List (List (Option String))
deriving DecidableEq

/-- One uploaded workbook. -/
structure Arquivo where
  nome : String
  sheets : List (String × Planilha)
deriving DecidableEq

/-- Cell of a row under a named column (positional lookup in the header). -/
def getCell (cols : List String) (row : List (Option String)) (c : String) : Option String :=
  match cols.findIdx? (fun nm => nm == c) with
  | some i =>
    match row.get? i with
    | some v => v
    | none => none
  | none => none

/-- One parsed citizen record (_ler_planilha_cidadaos output row). -/
structure LinhaCidadao where
  status_documento : Option String
  tempo_sem_atualizar : Option String
  unidade : String
  nome_equipe : String
  ine : String
  cidadao : String
  equipe_completa : String
deriving DecidableEq

/-- The required columns of the citizens parser (line 273). -/
def REQ_CIDADAOS : List String :=
  ["STATUS DOCUMENTO", "TEMPO SEM ATUALIZAR", "UNIDADE DE SAÚDE", "NOME EQUIPE", "INE", "CIDADÃO"]

/-- _ler_planilha_cidadaos (lines 267-283): read the DETALHADO sheet (a
missing sheet raises, caught as None), strip the header names, declare "not
this kind" when a required column is absent, otherwise drop the rows with a
missing identity field (line 275), uppercase the two status columns, strip
the INE and build the composite team key (lines 276-279). -/
def ler_planilha_cidadaos (f : Arquivo) : Option (List LinhaCidadao) := do
  let p ← f.sheets.lookup "DETALHADO"
  let cols := p.cols.map pyStrip
  if REQ_CIDADAOS.all (fun c => cols.contains c) then
    some (p.rows.filterMap fun row =>
      match getCell cols row "UNIDADE DE SAÚDE", getCell cols row "NOME EQUIPE",
            getCell cols row "INE", getCell cols row "CIDADÃO" with
      | some u, some ne, some ine, some cid =>
        some { status_documento := (getCell cols row "STATUS DOCUMENTO").map pyUpper
               tempo_sem_atualizar := (getCell cols row "TEMPO SEM ATUALIZAR").map pyUpper
               unidade := u
               nome_equipe := ne
               ine := pyStrip ine
               cidadao := cid
               equipe_completa := pyStrip ne ++ " - " ++ pyStrip ine }
      | _, _, _, _ => none)
  else none

/-- One parsed household record (_ler_planilha_domicilios output row). -/
structure LinhaDomicilio where
  estabelecimento_completo : Option String
  tempo_sem_atualizar : Option String
  familia_vinculada : Option String
deriving DecidableEq

/-- The required columns of the households parser (line 291). -/
def REQ_DOMICILIOS : List String :=
  ["Estabelecimento", "INE", "TEMPO SEM ATUALIZAR", "TEM FAMÍLIA VÍNCULADA?"]

/-- _ler_planilha_domicilios (lines 285-296): same DETALHADO sheet and
required-column gate; INE is rendered through astype(str), which turns a NaN
into the literal string "nan"; the composite facility key concatenates the
raw facility cell (NaN propagates) with that INE string.  No rows are
dropped. -/
def ler_planilha_domicilios (f : Arquivo) : Option (List LinhaDomicilio) := do
  let p ← f.sheets.lookup "DETALHADO"
  let cols := p.cols.map pyStrip
  if REQ_DOMICILIOS.all (fun c => cols.contains c) then
    some (p.rows.map fun row =>
      let ineS := match getCell cols row "INE" with
        | some s => s
        | none => "nan"
      { estabelecimento_completo :=
          (getCell cols row "Estabelecimento").map (fun e => e ++ " - " ++ ineS)
        tempo_sem_atualizar := getCell cols row "TEMPO SEM ATUALIZAR"
        familia_vinculada := getCell cols row "TEM FAMÍLIA VÍNCULADA?" })
  else none

/-- _ler_planilha_produtividade (lines 298-306): read the first sheet of the
workbook (read_excel default; an unreadable workbook yields None) and strip
the header names.  The to_datetime coercion of a DATA column only reshapes
values no claim depends on and is not modelled. -/
def ler_planilha_produtividade (f : Arquivo) : Option Planilha :=
  match f.sheets with
  | [] => none
  | (_, p) :: _ => some { p with cols := p.cols.map pyStrip }

/-- The three accumulated record sets of _processar_uploads. -/
structure Uploads where
  cid : List (List LinhaCidadao)
  dom : List (List LinhaDomicilio)
  prod : List Planilha
deriving DecidableEq

/-- The body of the upload loop (lines 310-316): try the citizens parser,
then households, then productivity; the productivity result is kept only
when an EQUIPE column is present; a file matching nothing changes no state. -/
def passo_upload (st : Uploads) (f : Arquivo) : Uploads :=
  match ler_planilha_cidadaos f with
  | some t => { st with cid := st.cid ++ [t] }
  | none =>
    match ler_planilha_domicilios f with
    | some t => { st with dom := st.dom ++ [t] }
    | none =>
      match ler_planilha_produtividade f with
      | some t => if t.cols.contains "EQUIPE" then { st with prod := st.prod ++ [t] } else st
      | none => st

/-- _processar_uploads (lines 308-319) over a batch of files. -/
def processar_uploads (files : List Arquivo) : Uploads :=
  files.foldl passo_upload ⟨[], [], []⟩

/-- A file recognised by none of the three parsers (nor carrying an EQUIPE
column for the productivity route). -/
def arquivo_nao_reconhecido (f : Arquivo) : Bool :=
  (ler_planilha_cidadaos f).isNone && (ler_planilha_domicilios f).isNone &&
    (match ler_planilha_produtividade f with
     | some t => !(t.cols.contains "EQUIPE")
     | none => true)

/-! ### Top-5 productivity ranking (lines 671-680)

df_filt.groupby('PROFISSIONAL')['TOTAL GERAL'].sum().nlargest(5): groupby
sorts the group keys ascending (its documented sort=True default) and
Series.nlargest returns the values in descending order keeping ties in
series order (its documented keep='first' behaviour). -/

/-- One row of the filtered productivity dataframe as the ranking sees it:
the professional (already filled at line 663, hence non-null) and the
TOTAL GERAL measure.  TOTAL GERAL holds whole encounter counts, so the
measure, its sums and its comparisons are exact over ℤ. -/
structure LinhaProducao where
  profissional : String
  total_geral : ℤ
deriving DecidableEq

/-- Sum of the measure over the rows of one professional. -/
def soma_profissional (rs : List LinhaProducao) (k : String) : ℤ :=
  ((rs.filter (fun r => r.profissional == k)).map (fun r => r.total_geral)).sum

/-- The grouped series: keys sorted ascending, each with its summed measure. -/
def serie_agrupada (rs : List LinhaProducao) : List (String × ℤ) :=
  (sortLe strLeB (uniqFirst (rs.map (fun r => r.profissional)))).map
    (fun k => (k, soma_profissional rs k))

/-- Series.nlargest n: stable descending sort by the value, first n kept. -/
def nlargestDesc (n : Nat) (s : List (String × ℤ)) : List (String × ℤ) :=
  (sortLe (fun a b => decide (b.2 ≤ a.2)) s).take n

/-- Line 673 of app.py: the Top 5 professionals table. -/
def top_5_profissionais (rs : List LinhaProducao) : List (String × ℤ) :=
  nlargestDesc 5 (serie_agrupada rs)

/-- Modelled from the claim's words (C9): a top-5 whose ties keep the
original relative input order, i.e. the professionals in first-appearance
order rather than grouped-key order, stably sorted by the measure.  Stated
for comparison with top_5_profissionais. -/
def top5_segundo_claim (rs : List LinhaProducao) : List (String × ℤ) :=
  (sortLe (fun a b => decide (b.2 ≤ a.2))
    ((uniqFirst (rs.map (fun r => r.profissional))).map
      (fun k => (k, soma_profissional rs k)))).take 5

/-! ### Municipality selection fallback (render_controls, lines 418-422) -/

/-- Line 418: the sorted unique municipality names of the registry. -/
def municipios_ordenados : List String :=
  sortLe strLeB (uniqFirst (carregar_parametros.map (fun m => m.municipio)))

/-- Lines 421-422: municipio_inferido or municipios[0].  Python's or falls
through to the first sorted municipality when the inference produced None
(no file name matched) and also on a falsy empty string. -/
def seleciona_municipio (inferido : Option String) : String :=
  match inferido with
  | some m => if m = "" then municipios_ordenados.headD "" else m
  | none => municipios_ordenados.headD ""

/-! ## Helper lemmas -/

theorem mem_insertLe {le : α → α → Bool} {a x : α} {l : List α} :
    x ∈ insertLe le a l ↔ x = a ∨ x ∈ l := by
  induction l with
  | nil => simp [insertLe]
  | cons b bs ih =>
    unfold insertLe
    by_cases hab : le a b = true
    · simp [if_pos hab]
    · simp only [if_neg hab, List.mem_cons, ih]
      tauto

theorem perm_insertLe (le : α → α → Bool) (a : α) (l : List α) :
    List.Perm (insertLe le a l) (a :: l) := by
  induction l with
  | nil => exact List.Perm.refl _
  | cons b bs ih =>
    unfold insertLe
    by_cases hab : le a b = true
    · rw [if_pos hab]
    · rw [if_neg hab]
      exact (ih.cons b).trans (List.Perm.swap a b bs)

theorem perm_sortLe (le : α → α → Bool) (l : List α) : List.Perm (sortLe le l) l := by
  induction l with
  | nil => exact List.Perm.refl _
  | cons a as ih => exact (perm_insertLe le a (sortLe le as)).trans (ih.cons a)

theorem pairwise_insertLe {le : α → α → Bool}
    (htot : ∀ x y, le x y = true ∨ le y x = true)
    (htrans : ∀ x y z, le x y = true → le y z = true → le x z = true)
    (a : α) {l : List α} (hl : l.Pairwise (fun x y => le x y = true)) :
    (insertLe le a l).Pairwise (fun x y => le x y = true) := by
  induction l with
  | nil => simp [insertLe]
  | cons b bs ih =>
    rcases List.pairwise_cons.mp hl with ⟨hb, hbs⟩
    unfold insertLe
    by_cases hab : le a b = true
    · rw [if_pos hab]
      refine List.pairwise_cons.mpr ⟨?_, hl⟩
      intro x hx
      rcases List.mem_cons.mp hx with rfl | hx
      · exact hab
      · exact htrans a b x hab (hb x hx)
    · rw [if_neg hab]
      refine List.pairwise_cons.mpr ⟨?_, ih hbs⟩
      intro x hx
      rcases mem_insertLe.mp hx with rfl | hx
      · rcases htot x b with h | h
        · exact absurd h hab
        · exact h
      · exact hb x hx

theorem pairwise_sortLe {le : α → α → Bool}
    (htot : ∀ x y, le x y = true ∨ le y x = true)
    (htrans : ∀ x y z, le x y = true → le y z = true → le x z = true)
    (l : List α) : (sortLe le l).Pairwise (fun x y => le x y = true) := by
  induction l with
  | nil => simp [sortLe]
  | cons a as ih => exact pairwise_insertLe htot htrans a ih

theorem charLt_asymm {a b : Char} (h : charLt a b = true) : charLt b a = false := by
  simp only [charLt, decide_eq_true_eq] at h
  simp only [charLt, decide_eq_false_iff_not]
  omega

theorem listCharLt_asymm : ∀ {a b : List Char},
    listCharLt a b = true → listCharLt b a = false := by
  intro a
  induction a with
  | nil =>
    intro b h
    cases b with
    | nil => simp [listCharLt] at h
    | cons y ys => simp [listCharLt]
  | cons x xs ih =>
    intro b h
    cases b with
    | nil => simp [listCharLt] at h
    | cons y ys =>
      simp only [listCharLt] at h ⊢
      by_cases h1 : charLt x y = true
      · rw [charLt_asymm h1, if_neg (by simp), if_pos h1]
      · rw [if_neg h1] at h
        by_cases h2 : charLt y x = true
        · rw [if_pos h2] at h
          exact absurd h (by simp)
        · rw [if_neg h2] at h
          rw [if_neg h2, if_neg h1]
          exact ih h

theorem listCharLt_cotrans : ∀ (c a b : List Char),
    listCharLt c a = true → listCharLt c b = true ∨ listCharLt b a = true := by
  intro c
  induction c with
  | nil =>
    intro a b h
    cases a with
    | nil => simp [listCharLt] at h
    | cons x xs =>
      cases b with
      | nil => right; simp [listCharLt]
      | cons y ys => left; simp [listCharLt]
  | cons z zs ih =>
    intro a b h
    cases a with
    | nil => simp [listCharLt] at h
    | cons x xs =>
      cases b with
      | nil => right; simp [listCharLt]
      | cons y ys =>
        simp only [listCharLt] at h ⊢
        rcases Nat.lt_trichotomy z.toNat y.toNat with hzy | hzy | hzy
        · left
          rw [if_pos (by simp [charLt]; omega)]
        · have hyz1 : charLt z y = false := by simp [charLt]; omega
          have hyz2 : charLt y z = false := by simp [charLt]; omega
          by_cases hzx : charLt z x = true
          · right
            rw [if_pos (by simp [charLt] at hzx ⊢; omega)]
          · rw [if_neg hzx] at h
            by_cases hxz : charLt x z = true
            · rw [if_pos hxz] at h
              exact absurd h (by simp)
            · rw [if_neg hxz] at h
              have hxy : charLt x y = false := by
                simp [charLt] at hzx hxz ⊢; omega
              have hyx : charLt y x = false := by
                simp [charLt] at hzx hxz ⊢; omega
              rcases ih xs ys h with h3 | h3
              · left
                rw [if_neg (by simp [hyz1]), if_neg (by simp [hyz2])]
                exact h3
              · right
                rw [if_neg (by simp [hyx]), if_neg (by simp [hxy])]
                exact h3
        · right
          have hyx : charLt y x = true := by
            by_cases hzx : charLt z x = true
            · simp only [charLt, decide_eq_true_eq] at hzx ⊢
              omega
            · rw [if_neg hzx] at h
              by_cases hxz : charLt x z = true
              · rw [if_pos hxz] at h
                exact absurd h (by simp)
              · rw [if_neg hxz] at h
                simp only [charLt, decide_eq_true_eq, Bool.not_eq_true,
                  decide_eq_false_iff_not] at hzx hxz ⊢
                omega
          rw [if_pos hyx]

theorem strLeB_total (a b : String) : strLeB a b = true ∨ strLeB b a = true := by
  unfold strLeB strLtB
  cases h : listCharLt b.data a.data
  · left; rfl
  · right
    rw [listCharLt_asymm h]
    rfl

theorem strLeB_trans {a b c : String}
    (h1 : strLeB a b = true) (h2 : strLeB b c = true) : strLeB a c = true := by
  unfold strLeB strLtB at h1 h2 ⊢
  cases h : listCharLt c.data a.data
  · rfl
  · rcases listCharLt_cotrans c.data a.data b.data h with h3 | h3
    · rw [h3] at h2; simp at h2
    · rw [h3] at h1; simp at h1

theorem mem_uniqFirstAux [DecidableEq α] :
    ∀ (l seen : List α) (x : α), x ∈ uniqFirstAux seen l → x ∈ l ∧ x ∉ seen := by
  intro l
  induction l with
  | nil => intro seen x hx; simp [uniqFirstAux] at hx
  | cons a as ih =>
    intro seen x hx
    unfold uniqFirstAux at hx
    by_cases ha : a ∈ seen
    · rw [if_pos ha] at hx
      rcases ih seen x hx with ⟨h1, h2⟩
      exact ⟨List.mem_cons_of_mem a h1, h2⟩
    · rw [if_neg ha] at hx
      rcases List.mem_cons.mp hx with rfl | hx
      · exact ⟨List.mem_cons_self x as, ha⟩
      · rcases ih (seen ++ [a]) x hx with ⟨h1, h2⟩
        refine ⟨List.mem_cons_of_mem a h1, fun hc => h2 ?_⟩
        exact List.mem_append_left _ hc

theorem nodup_uniqFirstAux [DecidableEq α] :
    ∀ (l seen : List α), (uniqFirstAux seen l).Nodup := by
  intro l
  induction l with
  | nil => intro seen; simp [uniqFirstAux]
  | cons a as ih =>
    intro seen
    unfold uniqFirstAux
    by_cases ha : a ∈ seen
    · rw [if_pos ha]; exact ih seen
    · rw [if_neg ha]
      refine List.nodup_cons.mpr ⟨fun hmem => ?_, ih (seen ++ [a])⟩
      rcases mem_uniqFirstAux as (seen ++ [a]) a hmem with ⟨_, h2⟩
      exact h2 (List.mem_append_right _ (List.mem_singleton.mpr rfl))

theorem nodup_uniqFirst [DecidableEq α] (l : List α) : (uniqFirst l).Nodup :=
  nodup_uniqFirstAux l []

/-! ## Claim C1 -/

/-- C1: for every municipality and every INE that is not a key of its EAP
override map (in particular when the map is empty), team-parameter
resolution returns subtype "ESF" with the municipal default target and hard
cap; when the INE is a key, it returns exactly that override, whatever its
values. -/
theorem C1_resolucao_parametros_por_ine (m : RegistroMunicipio) (ine : String) :
    (m.eap_por_ine.lookup ine = none →
      get_parametros_por_ine m ine =
        { tipo := "ESF", parametro := m.parametro_esf, limite_maximo := m.limite_esf })
  ∧ (∀ o : EAPOverride, m.eap_por_ine.lookup ine = some o →
      get_parametros_por_ine m ine = o) := by
  constructor
  · intro h
    unfold get_parametros_por_ine
    rw [h]
  · intro o h
    unfold get_parametros_por_ine
    rw [h]

/-- Witness for C1 on the MACAÍBA-RN registry row: the override of INE
0001234 wins even though its target 1375 and cap 2063 are lower than the
municipal defaults 2750 and 4125, and an unknown INE gets the ESF
defaults. -/
theorem C1_witness :
    get_parametros_por_ine
        ⟨"MACAÍBA", "RN", 2750, 4125,
          [("0001234", ⟨"20", 1375, 2063⟩), ("0005678", ⟨"30", 1875, 2813⟩)]⟩
        "0001234" = ⟨"20", 1375, 2063⟩
  ∧ get_parametros_por_ine
        ⟨"MACAÍBA", "RN", 2750, 4125,
          [("0001234", ⟨"20", 1375, 2063⟩), ("0005678", ⟨"30", 1875, 2813⟩)]⟩
        "9999999" = ⟨"ESF", 2750, 4125⟩ :=
  ⟨(C1_resolucao_parametros_por_ine _ _).2 _ (by decide),
   (C1_resolucao_parametros_por_ine _ _).1 (by decide)⟩

/-! ## Claim C2 -/

/-- C2: the per-team status uses strict greater-than comparisons with the
hard-cap check first: the result is the hard-limit status iff enrolled
exceeds the cap; the above-target status iff enrolled exceeds the target but
not the cap; the within-target status otherwise.  With target < cap, a count
equal to the target is within target and a count equal to the cap is above
target; the theorem quantifies over all thresholds, so the target = cap case
(e.g. 5/4/4, see the witness) falls under the first equivalence: the
hard-limit branch wins. -/
theorem C2_classificacao_status (c t h : Nat) :
    (get_status c t h = "🚨 ACIMA DO LIMITE MÁXIMO" ↔ h < c)
  ∧ (get_status c t h = "⚠️ Acima do Parâmetro" ↔ t < c ∧ c ≤ h)
  ∧ (get_status c t h = "✅ Dentro do Parâmetro" ↔ c ≤ t ∧ c ≤ h)
  ∧ (t < h →
      (c = t → get_status c t h = "✅ Dentro do Parâmetro")
    ∧ (c = h → get_status c t h = "⚠️ Acima do Parâmetro")) := by
  have ne1 : ("🚨 ACIMA DO LIMITE MÁXIMO" : String) ≠ "⚠️ Acima do Parâmetro" := by decide
  have ne2 : ("🚨 ACIMA DO LIMITE MÁXIMO" : String) ≠ "✅ Dentro do Parâmetro" := by decide
  have ne3 : ("⚠️ Acima do Parâmetro" : String) ≠ "✅ Dentro do Parâmetro" := by decide
  unfold get_status
  split_ifs with h1 h2
  · refine ⟨⟨fun _ => h1, fun _ => rfl⟩,
      ⟨fun e => absurd e ne1, fun hc => absurd h1 (by omega)⟩,
      ⟨fun e => absurd e ne2, fun hc => absurd h1 (by omega)⟩,
      fun hth => ⟨fun hc => absurd h1 (by omega), fun hc => absurd h1 (by omega)⟩⟩
  · refine ⟨⟨fun e => absurd e.symm ne1, fun hc => absurd hc (by omega)⟩,
      ⟨fun _ => by omega, fun _ => rfl⟩,
      ⟨fun e => absurd e ne3, fun hc => absurd h2 (by omega)⟩,
      fun hth => ⟨fun hc => absurd h2 (by omega), fun _ => rfl⟩⟩
  · refine ⟨⟨fun e => absurd e.symm ne2, fun hc => absurd hc (by omega)⟩,
      ⟨fun e => absurd e.symm ne3, fun hc => absurd hc.1 (by omega)⟩,
      ⟨fun _ => by omega, fun _ => rfl⟩,
      fun hth => ⟨fun _ => rfl, fun hc => absurd hc (by omega)⟩⟩

/-- Witness for C2: the spec scenario 5/4/4 hits the hard limit, 4/4/5 stays
within target, 5/4/5 is above target. -/
theorem C2_witness :
    get_status 5 4 4 = "🚨 ACIMA DO LIMITE MÁXIMO"
  ∧ get_status 4 4 5 = "✅ Dentro do Parâmetro"
  ∧ get_status 5 4 5 = "⚠️ Acima do Parâmetro" :=
  ⟨(C2_classificacao_status 5 4 4).1.mpr (by decide),
   (C2_classificacao_status 4 4 5).2.2.1.mpr (by decide),
   (C2_classificacao_status 5 4 5).2.1.mpr (by decide)⟩

/-! ## Claim C6 -/

/-- C6: when no uploaded file name yields a known municipality, the selected
municipality is the fallback municipios[0]; for the shipped registry this is
ALHANDRA, which is also the first municipality in registry (insertion)
order, so the fallback is the first municipality in registry order and the
run continues with it. -/
theorem C6_fallback_primeiro_municipio :
    seleciona_municipio none = "ALHANDRA"
  ∧ (carregar_parametros.map (fun m => m.municipio)).head? = some "ALHANDRA" := by
  constructor
  · decide
  · decide

/-! ## Claim C7 -/

theorem splitSepAux_no_sep : ∀ (s acc : List Char), temSep s = false →
    splitSepAux s acc = [acc.reverse ++ s] := by
  intro s acc
  induction s, acc using splitSepAux.induct with
  | case1 c1 c2 c3 rest acc hsep ih =>
    intro h
    simp only [temSep] at h
    rw [if_pos hsep] at h
    simp at h
  | case2 c1 c2 c3 rest acc hsep ih =>
    intro h
    simp only [temSep] at h
    rw [if_neg hsep] at h
    simp only [splitSepAux]
    rw [if_neg hsep, ih h]
    simp
  | case3 c rest acc hshort ih =>
    intro h
    cases rest with
    | nil => simp [splitSepAux]
    | cons d ds =>
      cases ds with
      | nil => simp [splitSepAux]
      | cons e es => exact (hshort d e es rfl).elim
  | case4 acc =>
    intro h
    simp [splitSepAux]

/-- Counterexample for C7: on the composite key "A - - B " the separator
occurrences overlap, so the last field of Python's left-to-right
non-overlapping split (then stripped), which is what the code computes, is
"- B", while the text after the last occurrence of the separator is "B ". -/
theorem C7_counterexample :
    extrai_ine "A - - B " = "- B"
  ∧ ine_segundo_claim "A - - B " = "B "
  ∧ extrai_ine "A - - B " ≠ ine_segundo_claim "A - - B " :=
  ⟨by decide, by decide, by decide⟩

/-- C7 (amended): the INE token used for parameter resolution is the last
field of Python's left-to-right non-overlapping split of the composite key
on " - ", with surrounding whitespace stripped; in particular a key
containing no separator yields the whole key, stripped, and no error is
raised. -/
theorem C7_token_ine_sem_separador (k : String) (h : temSep k.data = false) :
    pySplit k.data = [k.data] ∧ extrai_ine k = pyStrip k := by
  have hs := splitSepAux_no_sep k.data [] h
  have h2 : pySplit k.data = [k.data] := by
    unfold pySplit
    rw [hs]
    rfl
  refine ⟨h2, ?_⟩
  unfold extrai_ine pyStrip
  rw [h2]
  rfl

/-- Witness for C7 at the separator-free key "EQUIPE VERDE". -/
theorem C7_witness :
    temSep ("EQUIPE VERDE".data) = false
  ∧ (pySplit ("EQUIPE VERDE".data) = ["EQUIPE VERDE".data]
      ∧ extrai_ine "EQUIPE VERDE" = pyStrip "EQUIPE VERDE") :=
  ⟨by decide, C7_token_ine_sem_separador "EQUIPE VERDE" (by decide)⟩

/-! ## Crosstab lemmas and claims C4, C5, C10 -/

theorem mem_gerar_crosstab {rs : List Registro} {ordem : List String} {l : LinhaCrosstab}
    (hl : l ∈ gerar_crosstab rs ordem) : ∃ g, l = linhaFor rs ordem g := by
  unfold gerar_crosstab at hl
  have hl2 := (perm_sortLe _ _).mem_iff.mp hl
  rcases List.mem_map.mp hl2 with ⟨g, _, rfl⟩
  exact ⟨g, rfl⟩

theorem nat_sum_eq_zero {l : List ℕ} (h : l.sum = 0) : ∀ x ∈ l, x = 0 := by
  induction l with
  | nil => simp
  | cons a as ih =>
    simp only [List.sum_cons] at h
    intro x hx
    rcases List.mem_cons.mp hx with rfl | hx
    · omega
    · exact ih (by omega) x hx

theorem sum_map_zero (l : List α) : (l.map (fun _ => (0 : ℕ))).sum = 0 := by
  induction l with
  | nil => rfl
  | cons a as ih => simp [ih]

theorem sum_map_div_nat (l : List ℕ) (T : ℚ) :
    (l.map (fun (n : ℕ) => (n : ℚ) / T * 100)).sum = ((l.sum : ℚ) / T) * 100 := by
  induction l with
  | nil => simp
  | cons n ns ih =>
    rw [List.map_cons, List.sum_cons, ih, List.sum_cons, Nat.cast_add]
    ring

theorem sum_map_add_nat (l : List α) (f g : α → ℕ) :
    (l.map (fun x => f x + g x)).sum = (l.map f).sum + (l.map g).sum := by
  induction l with
  | nil => rfl
  | cons a as ih =>
    simp only [List.map_cons, List.sum_cons, ih]
    omega

theorem sum_ite_eq_mem (x : String) : ∀ (ordem : List String), ordem.Nodup →
    (ordem.map (fun c => if x == c then 1 else 0)).sum = (if x ∈ ordem then 1 else 0 : ℕ) := by
  intro ordem
  induction ordem with
  | nil => intro h; simp
  | cons c cs ih =>
    intro h
    rcases List.nodup_cons.mp h with ⟨hc, hcs⟩
    rw [List.map_cons, List.sum_cons, ih hcs]
    by_cases hx : x = c
    · subst hx
      have h1 : (if (x == x : Bool) then (1 : ℕ) else 0) = 1 := by simp
      have h2 : (if x ∈ cs then (1 : ℕ) else 0) = 0 := by simp [hc]
      have h3 : (if x ∈ x :: cs then (1 : ℕ) else 0) = 1 := by simp
      rw [h1, h2, h3]
    · have h1 : (if (x == c : Bool) then (1 : ℕ) else 0) = 0 := by simp [hx]
      have h2 : (if x ∈ c :: cs then (1 : ℕ) else 0) = (if x ∈ cs then (1 : ℕ) else 0) := by
        simp [List.mem_cons, hx]
      rw [h1, h2, Nat.zero_add]

theorem total_eq_countP (rs : List Registro) (ordem : List String) (hord : ordem.Nodup)
    (g : String) :
    (ordem.map (fun c => cellCount rs g c)).sum
      = rs.countP (fun r => r.grupo == g && decide (r.cat ∈ ordem)) := by
  induction rs with
  | nil => simp [cellCount]
  | cons r rs ih =>
    rw [List.countP_cons]
    have hmap : ordem.map (fun c => cellCount (r :: rs) g c)
        = ordem.map (fun c => cellCount rs g c
            + if r.grupo == g && r.cat == c then 1 else 0) :=
      List.map_congr_left fun c _ => List.countP_cons _ _ _
    rw [hmap, sum_map_add_nat, ih]
    congr 1
    by_cases hg : (r.grupo == g) = true
    · simp only [hg, Bool.true_and]
      rw [sum_ite_eq_mem r.cat ordem hord]
      by_cases hmem : r.cat ∈ ordem
      · simp [hmem]
      · simp [hmem]
    · have hgf : (r.grupo == g) = false := by
        revert hg
        cases r.grupo == g <;> simp
      calc (ordem.map (fun c => if r.grupo == g && r.cat == c then 1 else 0)).sum
          = (ordem.map (fun _ => (0 : ℕ))).sum :=
            congrArg _ (List.map_congr_left fun c _ => by simp [hgf])
        _ = 0 := sum_map_zero ordem
        _ = if (r.grupo == g && decide (r.cat ∈ ordem)) = true then 1 else 0 := by
            simp [hgf]

theorem cells_map_fst (rs : List Registro) (ordem : List String) (g : String) :
    (linhaFor rs ordem g).cells.map Prod.fst = ordem := by
  unfold linhaFor
  rw [List.map_map]
  have hid : (Prod.fst ∘ fun c : String => (c, cellCount rs g c)) = id := rfl
  rw [hid, List.map_id]

theorem cells_map_snd (rs : List Registro) (ordem : List String) (g : String) :
    (linhaFor rs ordem g).cells.map Prod.snd = ordem.map (fun c => cellCount rs g c) := by
  unfold linhaFor
  rw [List.map_map]
  rfl

/-- C4: every crosstab row carries exactly the requested categories as its
columns, in the requested order; a category with zero observations is a
zero-filled column; the Total column is the row-wise sum of the raw counts;
and the rows come out sorted descending by Total. -/
theorem C4_crosstab_forma_e_ordenacao (rs : List Registro) (ordem : List String) :
    (∀ l ∈ gerar_crosstab rs ordem,
        l.cells.map Prod.fst = ordem
      ∧ l.total = (l.cells.map Prod.snd).sum
      ∧ ∀ p ∈ l.cells, (∀ r ∈ rs, r.cat ≠ p.1) → p.2 = 0)
  ∧ (gerar_crosstab rs ordem).Pairwise (fun a b => b.total ≤ a.total) := by
  constructor
  · intro l hl
    rcases mem_gerar_crosstab hl with ⟨g, rfl⟩
    refine ⟨cells_map_fst rs ordem g, ?_, ?_⟩
    · rw [cells_map_snd]
      rfl
    · intro p hp hnone
      rcases List.mem_map.mp hp with ⟨c, _, rfl⟩
      simp only [cellCount]
      rw [List.countP_eq_zero]
      intro r hr
      have hrc : r.cat ≠ c := hnone r hr
      simp [hrc]
  · have hpw := @pairwise_sortLe LinhaCrosstab
      (fun a b => decide (b.total ≤ a.total))
      (fun x y => by
        rcases Nat.le_total y.total x.total with h | h
        · left; simpa using h
        · right; simpa using h)
      (fun x y z hxy hyz => by
        simp only [decide_eq_true_eq] at hxy hyz ⊢
        omega)
      ((sortLe strLeB (uniqFirst (rs.map (fun r => r.grupo)))).map (linhaFor rs ordem))
    unfold gerar_crosstab
    exact hpw.imp fun h => by simpa using h

/-- Witness for C4 on two groups and an unobserved category: the U2 row of
the computed crosstab has columns exactly the requested order and the
never-observed category SEM CPF is zero-filled. -/
theorem C4_witness :
    ((⟨"U2", [("COM CPF", 2), ("SEM CPF", 0)], 2⟩ : LinhaCrosstab).cells.map Prod.fst
        = ["COM CPF", "SEM CPF"])
  ∧ ((("SEM CPF", 0) : String × Nat).2 = 0) := by
  have h := (C4_crosstab_forma_e_ordenacao
      [⟨"U1", "COM CPF"⟩, ⟨"U2", "COM CPF"⟩, ⟨"U2", "COM CPF"⟩]
      ["COM CPF", "SEM CPF"]).1
      ⟨"U2", [("COM CPF", 2), ("SEM CPF", 0)], 2⟩ (by decide)
  exact ⟨h.1, h.2.2 ("SEM CPF", 0) (by decide) (by decide)⟩

/-- C5: the percentage table divides each row's raw counts by that row's
Total and multiplies by 100; a row with Total 0 yields the number 0 in every
cell (0/0 is NaN, filled to 0) rather than a failure; a row with positive
Total has finite cells count/Total*100 whose underlying rationals sum to
exactly 100. -/
theorem C5_percentuais_e_denominador_zero (rs : List Registro) (ordem : List String) :
    ∀ l ∈ gerar_crosstab rs ordem,
      linhaPercentual l
          = l.cells.map (fun p => (p.1, pmul100 (fillna0 (pdiv (p.2 : ℚ) (l.total : ℚ)))))
      ∧ (l.total = 0 → ∀ p ∈ linhaPercentual l, p.2 = PVal.num 0)
      ∧ (0 < l.total →
          (linhaPercentual l).map Prod.snd
            = l.cells.map (fun p => PVal.num ((p.2 : ℚ) / (l.total : ℚ) * 100))
          ∧ (l.cells.map (fun p => ((p.2 : ℚ) / (l.total : ℚ) * 100))).sum = 100) := by
  intro l hl
  rcases mem_gerar_crosstab hl with ⟨g, rfl⟩
  refine ⟨rfl, ?_, ?_⟩
  · intro h0 p hp
    have hcell : ∀ c ∈ ordem, cellCount rs g c = 0 := by
      intro c hc
      exact nat_sum_eq_zero h0 _ (List.mem_map.mpr ⟨c, hc, rfl⟩)
    rcases List.mem_map.mp hp with ⟨q, hq, rfl⟩
    rcases List.mem_map.mp hq with ⟨c, hc, rfl⟩
    have h1 : cellCount rs g c = 0 := hcell c hc
    show pmul100 (fillna0 (pdiv _ _)) = PVal.num 0
    rw [h1, h0]
    simp [pdiv, fillna0, pmul100]
  · intro hpos
    have hT0 : (linhaFor rs ordem g).total ≠ 0 := Nat.pos_iff_ne_zero.mp hpos
    have hT : (((linhaFor rs ordem g).total : ℕ) : ℚ) ≠ 0 := by
      exact_mod_cast hT0
    constructor
    · unfold linhaPercentual
      rw [List.map_map]
      exact List.map_congr_left fun p _ => by
        simp [pdiv, fillna0, pmul100, hT0, hT]
    · have hm : (linhaFor rs ordem g).cells.map
            (fun p => ((p.2 : ℚ) / ((linhaFor rs ordem g).total : ℚ) * 100))
          = (ordem.map (fun c => cellCount rs g c)).map
            (fun (n : ℕ) => ((n : ℚ) / ((linhaFor rs ordem g).total : ℚ) * 100)) := by
        simp only [linhaFor, List.map_map]
        rfl
      rw [hm, sum_map_div_nat]
      have hs : ((ordem.map (fun c => cellCount rs g c)).sum : ℚ)
          = (((linhaFor rs ordem g).total : ℕ) : ℚ) := rfl
      rw [hs, div_self hT, one_mul]

/-- Witness for C5 on a two-citizen group: the row's Total 2 is positive and
the instantiated percentage cells 1/2*100 each sum to 100. -/
theorem C5_witness :
    (0 < (2 : ℕ))
  ∧ (([(("COM CPF", 1) : String × ℕ), ("SEM CPF", 1)]).map
        (fun p => ((p.2 : ℚ) / ((2 : ℕ) : ℚ) * 100))).sum = 100 := by
  have h := C5_percentuais_e_denominador_zero
      [⟨"A", "COM CPF"⟩, ⟨"A", "SEM CPF"⟩] ["COM CPF", "SEM CPF"]
      ⟨"A", [("COM CPF", 1), ("SEM CPF", 1)], 2⟩ (by decide)
  exact ⟨by decide, (h.2.2 (by decide)).2⟩

/-- C10: an observation whose categorical value is outside the requested
category order contributes to no emitted column (the columns are exactly the
requested order) and is not counted in the row Total: the Total counts
exactly the observations of the row's group whose category lies in the
order. -/
theorem C10_total_restrito_a_ordem (rs : List Registro) (ordem : List String)
    (hord : ordem.Nodup) :
    ∀ l ∈ gerar_crosstab rs ordem,
      l.cells.map Prod.fst = ordem
      ∧ l.total = rs.countP (fun r => r.grupo == l.grupo && decide (r.cat ∈ ordem)) := by
  intro l hl
  rcases mem_gerar_crosstab hl with ⟨g, rfl⟩
  exact ⟨cells_map_fst rs ordem g, total_eq_countP rs ordem hord g⟩

/-- Witness for C10: with one observation of category WEIRD outside the
order, the A row still has columns COM CPF and SEM CPF only and its Total 1
counts only the in-order observation. -/
theorem C10_witness :
    ((⟨"A", [("COM CPF", 1), ("SEM CPF", 0)], 1⟩ : LinhaCrosstab).cells.map Prod.fst
        = ["COM CPF", "SEM CPF"])
  ∧ ((⟨"A", [("COM CPF", 1), ("SEM CPF", 0)], 1⟩ : LinhaCrosstab).total
      = ([⟨"A", "COM CPF"⟩, ⟨"A", "WEIRD"⟩] : List Registro).countP
          (fun r => r.grupo == "A" && decide (r.cat ∈ ["COM CPF", "SEM CPF"]))) := by
  have h := C10_total_restrito_a_ordem [⟨"A", "COM CPF"⟩, ⟨"A", "WEIRD"⟩]
      ["COM CPF", "SEM CPF"] (by decide)
      ⟨"A", [("COM CPF", 1), ("SEM CPF", 0)], 1⟩ (by decide)
  exact h

/-! ## Claim C8 -/

/-- C8: each uploaded file is tried against the citizens parser first, then
households, then productivity, and the first success consumes it; a citizens
sheet missing a required column is "not this kind" (None), not a failure;
and a file recognised by no route leaves the accumulated state untouched, so
dropping it from a batch does not change the result: the remaining files are
still processed. -/
theorem C8_roteamento_uploads :
    (∀ (f : Arquivo) (st : Uploads) (t : List LinhaCidadao),
        ler_planilha_cidadaos f = some t →
        passo_upload st f = { st with cid := st.cid ++ [t] })
  ∧ (∀ (f : Arquivo) (st : Uploads) (t : List LinhaDomicilio),
        ler_planilha_cidadaos f = none → ler_planilha_domicilios f = some t →
        passo_upload st f = { st with dom := st.dom ++ [t] })
  ∧ (∀ (f : Arquivo) (p : Planilha) (c : String),
        f.sheets.lookup "DETALHADO" = some p →
        c ∈ REQ_CIDADAOS → c ∉ p.cols.map pyStrip →
        ler_planilha_cidadaos f = none)
  ∧ (∀ f : Arquivo, arquivo_nao_reconhecido f = true →
        ∀ xs ys : List Arquivo,
          processar_uploads (xs ++ f :: ys) = processar_uploads (xs ++ ys)) := by
  refine ⟨?_, ?_, ?_, ?_⟩
  · intro f st t h
    unfold passo_upload
    rw [h]
  · intro f st t h1 h2
    unfold passo_upload
    rw [h1, h2]
  · intro f p c hsheet hreq habs
    unfold ler_planilha_cidadaos
    rw [hsheet]
    have hall : ¬ (REQ_CIDADAOS.all (fun c => (p.cols.map pyStrip).contains c) = true) := by
      intro hall
      have := (List.all_eq_true.mp hall) c hreq
      exact habs (List.mem_of_elem_eq_true this)
    exact if_neg hall
  · intro f hf xs ys
    have hstep : ∀ st, passo_upload st f = st := by
      intro st
      unfold arquivo_nao_reconhecido at hf
      simp only [Bool.and_eq_true] at hf
      obtain ⟨⟨h1, h2⟩, h3⟩ := hf
      have h1n : ler_planilha_cidadaos f = none := Option.isNone_iff_eq_none.mp h1
      have h2n : ler_planilha_domicilios f = none := Option.isNone_iff_eq_none.mp h2
      unfold passo_upload
      rw [h1n, h2n]
      cases hp : ler_planilha_produtividade f with
      | none => rfl
      | some t =>
        rw [hp] at h3
        have hc : ("EQUIPE" : String) ∉ t.cols := by
          simpa using h3
        simp [hc]
    unfold processar_uploads
    rw [List.foldl_append, List.foldl_append, List.foldl_cons, hstep]

/-- Witness for C8: a well-formed citizens workbook is consumed by the
citizens route; a workbook with a DETALHADO sheet lacking the INE column is
not a citizens file; a workbook with only an unrelated sheet is ignored and
the batch reduces to the remaining files. -/
theorem C8_witness :
    (passo_upload ⟨[], [], []⟩
        ⟨"cid.xlsx", [("DETALHADO", ⟨REQ_CIDADAOS,
          [[some "COM CPF", some "ATÉ 4 MESES", some "U1", some "EQ1", some "001", some "P1"]]⟩)]⟩
      = ⟨[[⟨some "COM CPF", some "ATÉ 4 MESES", "U1", "EQ1", "001", "P1", "EQ1 - 001"⟩]], [], []⟩)
  ∧ (ler_planilha_cidadaos
        ⟨"semine.xlsx", [("DETALHADO", ⟨["STATUS DOCUMENTO"], []⟩)]⟩ = none)
  ∧ (processar_uploads [⟨"x.xlsx", [("Sheet1", ⟨["X"], []⟩)]⟩] = processar_uploads []) :=
  ⟨C8_roteamento_uploads.1 _ _ _ (by decide),
   C8_roteamento_uploads.2.2.1 _ ⟨["STATUS DOCUMENTO"], []⟩ "INE" (by decide) (by decide) (by decide),
   C8_roteamento_uploads.2.2.2 _ (by decide) [] []⟩

/-! ## Claim C9 -/

theorem serie_agrupada_chaves (rs : List LinhaProducao) :
    (serie_agrupada rs).Pairwise
      (fun a b => strLeB a.1 b.1 = true ∧ a.1 ≠ b.1) := by
  unfold serie_agrupada
  rw [List.pairwise_map]
  have hle : (sortLe strLeB (uniqFirst (rs.map (fun r => r.profissional)))).Pairwise
      (fun a b => strLeB a b = true) :=
    pairwise_sortLe strLeB_total (fun x y z hxy hyz => strLeB_trans hxy hyz) _
  have hnd : (sortLe strLeB (uniqFirst (rs.map (fun r => r.profissional)))).Nodup :=
    ((perm_sortLe _ _).nodup_iff).mpr (nodup_uniqFirst _)
  exact hle.and hnd

theorem pairwise_rank_insertLe (y : String × ℤ) :
    ∀ l : List (String × ℤ),
      l.Pairwise (fun a b => b.2 < a.2 ∨ (a.2 = b.2 ∧ strLeB a.1 b.1 = true ∧ a.1 ≠ b.1)) →
      (∀ x ∈ l, strLeB y.1 x.1 = true ∧ y.1 ≠ x.1) →
      (insertLe (fun a b => decide (b.2 ≤ a.2)) y l).Pairwise
        (fun a b => b.2 < a.2 ∨ (a.2 = b.2 ∧ strLeB a.1 b.1 = true ∧ a.1 ≠ b.1)) := by
  intro l
  induction l with
  | nil =>
    intro hl hy
    simp [insertLe]
  | cons b bs ih =>
    intro hl hy
    rcases List.pairwise_cons.mp hl with ⟨hb, hbs⟩
    unfold insertLe
    by_cases hyb : (decide (b.2 ≤ y.2)) = true
    · rw [if_pos hyb]
      have hble : b.2 ≤ y.2 := of_decide_eq_true hyb
      refine List.pairwise_cons.mpr ⟨?_, hl⟩
      intro x hx
      have hxle : x.2 ≤ y.2 := by
        rcases List.mem_cons.mp hx with rfl | hx2
        · exact hble
        · rcases hb x hx2 with h | ⟨h1, _⟩
          · omega
          · omega
      rcases lt_or_eq_of_le hxle with h | h
      · exact Or.inl h
      · exact Or.inr ⟨h.symm, (hy x hx).1, (hy x hx).2⟩
    · rw [if_neg hyb]
      have hylt : y.2 < b.2 := by
        have hnle : ¬ b.2 ≤ y.2 := fun hle => hyb (decide_eq_true hle)
        omega
      refine List.pairwise_cons.mpr
        ⟨?_, ih hbs (fun x hx => hy x (List.mem_cons_of_mem b hx))⟩
      intro x hx
      rcases mem_insertLe.mp hx with rfl | hx2
      · exact Or.inl hylt
      · exact hb x hx2

theorem pairwise_rank_sortLe :
    ∀ s : List (String × ℤ),
      s.Pairwise (fun a b => strLeB a.1 b.1 = true ∧ a.1 ≠ b.1) →
      (sortLe (fun a b => decide (b.2 ≤ a.2)) s).Pairwise
        (fun a b => b.2 < a.2 ∨ (a.2 = b.2 ∧ strLeB a.1 b.1 = true ∧ a.1 ≠ b.1)) := by
  intro s
  induction s with
  | nil =>
    intro hs
    simp [sortLe]
  | cons a as ih =>
    intro hs
    rcases List.pairwise_cons.mp hs with ⟨ha, has⟩
    unfold sortLe
    refine pairwise_rank_insertLe a _ (ih has) ?_
    intro x hx
    exact ha x ((perm_sortLe _ _).mem_iff.mp hx)

/-- Counterexample for C9: with the tied input rows ZULU then ANNA, the code
groups by professional with sorted keys and then takes nlargest, producing
ANNA before ZULU; a top-5 whose ties keep the original relative input order
would produce ZULU before ANNA. -/
theorem C9_counterexample :
    top_5_profissionais [⟨"ZULU", 5⟩, ⟨"ANNA", 5⟩] = [("ANNA", 5), ("ZULU", 5)]
  ∧ top5_segundo_claim [⟨"ZULU", 5⟩, ⟨"ANNA", 5⟩] = [("ZULU", 5), ("ANNA", 5)]
  ∧ top_5_profissionais [⟨"ZULU", 5⟩, ⟨"ANNA", 5⟩]
      ≠ top5_segundo_claim [⟨"ZULU", 5⟩, ⟨"ANNA", 5⟩] :=
  ⟨by decide, by decide, by decide⟩

/-- C9 (amended): the top-5 ranking lists rows in descending order of the
summed measure and, among rows with tied measures, in ascending order of the
professional name (the grouped series' key order), because groupby sorts its
keys and nlargest keeps ties in series order — not in original input
order. -/
theorem C9_ranking_ordem_e_empates (rs : List LinhaProducao) :
    (top_5_profissionais rs).Pairwise
      (fun a b => b.2 < a.2 ∨ (a.2 = b.2 ∧ strLeB a.1 b.1 = true ∧ a.1 ≠ b.1)) := by
  unfold top_5_profissionais nlargestDesc
  exact (pairwise_rank_sortLe _ (serie_agrupada_chaves rs)).sublist
    (List.take_sublist 5 _)

end APS
